import Mathlib

/-!
Verification of the iridescent compiler core against its specification.

The Rust sources are shallowly embedded: each Lean definition mirrors one
Rust function or data type, keeping the source's names (Rust's `Type` enum
becomes `Ty`, since `Type` is reserved in Lean).  Rust `panic!`/`todo!`/
`.unwrap()` failures are modelled with `Option`/`Except` error values;
`Vec` becomes `List`; process-wide atomic counters become explicit state.
-/

namespace Iridescent

/-! ## `src/ast.rs`: data model -/

/-- Mirror of `ast.rs` `enum Type` (all currently implemented primitives). -/
inductive Ty where
  | Void
  | Byte
  | Integer
  | Long
  | Char
  | Boolean
  deriving DecidableEq, Repr

/-- Mirror of `ast.rs` `enum Literal`.  The Rust payloads are `u8`, `i16`,
`i32`, `char`, `bool`; the integral ones are modelled as `Int` (no
arithmetic is performed on them by the code under study). -/
inductive Literal where
  | Byte (value : Int)
  | Integer (value : Int)
  | Long (value : Int)
  | Char (value : Char)
  | Boolean (value : Bool)
  deriving DecidableEq, Repr

/-- Mirror of `ast.rs` `enum Operator`. -/
inductive Operator where
  | NegateNumerical
  | NegateLogical
  | Complement
  | Addition
  | Subtraction
  | Multiplication
  | Division
  | And
  | Or
  | XOr
  | LeftShiftLogical
  | LeftShiftArithmetic
  | RightShiftLogical
  deriving DecidableEq, Repr

/-- Mirror of `ast.rs` `enum BooleanOperator`. -/
inductive BooleanOperator where
  | Equal
  | NotEqual
  | Greater
  | GreaterOrEqual
  | Less
  | LessOrEqual
  | Invert
  deriving DecidableEq, Repr

/-- Mirror of `ast.rs` `enum BooleanConnector`. -/
inductive BooleanConnector where
  | And
  | Or
  | XOr
  deriving DecidableEq, Repr

/-- Mirror of `ast.rs` `enum Mutability`. -/
inductive Mutability where
  | Mutable
  | Constant
  deriving DecidableEq, Repr

/-- Mirror of `ast.rs` `enum ASTNode`; constructor argument order follows the
Rust field order, `Box` and `Vec` become plain values and `List`. -/
inductive ASTNode where
  | Function (return_type : Ty) (identifier : String) (parameters : List ASTNode)
      (statements : List ASTNode) (scope : Nat)
  | Parameter (param_type : Ty) (identifier : String)
  | ReturnStatement (expression : ASTNode)
  | VarDeclStatement (var_type : Ty) (mutability : Mutability) (identifier : String)
      (value : ASTNode)
  | VarAssignStatement (identifier : String) (value : ASTNode)
  | Expression (lhs : ASTNode) (operator : Option Operator) (rhs : Option ASTNode)
  | Term (child : ASTNode)
  | Value (literal_type : Ty) (value : Literal)
  | FunctionCall (identifier : String) (arguments : List ASTNode)
  | BooleanTerm (lhs : ASTNode) (operator : Option BooleanOperator) (rhs : Option ASTNode)
  | BooleanExpression (lhs : ASTNode) (operator : Option BooleanOperator)
      (connector : Option BooleanConnector) (rhs : Option ASTNode)
  | TernaryExpression (condition : ASTNode) (if_true : ASTNode) (if_false : ASTNode)
  | IfElifElseStatement (statements : List ASTNode)
  | IfStatement (condition : ASTNode) (statements : List ASTNode) (scope : Nat)
  | ElseStatement (statements : List ASTNode) (scope : Nat)
  | TypeCast (from_node : ASTNode) (into : Ty)
  | IndefLoop (statements : List ASTNode) (scope : Nat)
  | WhileLoop (condition : ASTNode) (statements : List ASTNode) (scope : Nat)
  | ForLoop (control_type : Ty) (control_identifier : String) (control_initial : ASTNode)
      (limit : ASTNode) (step : ASTNode) (statements : List ASTNode) (scope : Nat)
  | Identifier (name : String)
  | Break
  | Continue

/-- Mirror of `ast.rs` `get_type_from_string`; the `panic!` arm becomes `none`. -/
def get_type_from_string (type_str : String) : Option Ty :=
  match type_str with
  | "void" => some Ty.Void
  | "byte" => some Ty.Byte
  | "int" => some Ty.Integer
  | "bool" => some Ty.Boolean
  | "long" => some Ty.Long
  | "char" => some Ty.Char
  | _ => none

/-- Mirror of `ast.rs` `get_binary_operator_from_str`; the `panic!` arm becomes
`none`. -/
def get_binary_operator_from_str (operator_str : String) : Option Operator :=
  match operator_str with
  | "+" => some Operator.Addition
  | "-" => some Operator.Subtraction
  | "*" => some Operator.Multiplication
  | "/" => some Operator.Division
  | "&" => some Operator.And
  | "|" => some Operator.Or
  | "^" => some Operator.XOr
  | ">>" => some Operator.LeftShiftLogical
  | ">>>" => some Operator.LeftShiftArithmetic
  | "<<" => some Operator.RightShiftLogical
  | _ => none

/-! ## `src/frontend/parser.rs`: default for-loop step

`build_ast_from_for_loop` selects the step expression from the next parse
token.  Parsing itself (the `pest` pair machinery) is external I/O; the
selection logic is embedded with the token abstracted to the AST node the
corresponding builder would return. -/

/-- Abstraction of `parent.peek()` in `build_ast_from_for_loop`: either an
`expression` token (its `get_expr_from_expr_or_term` build), a `term` token
(its `build_ast_from_term` build), some other rule, or no token at all. -/
inductive StepClause where
  | expressionTok (built : ASTNode)
  | termTok (built : ASTNode)
  | otherTok
  | absent

/-- Mirror of the `let step = match parent.peek() { ... }` selection in
`build_ast_from_for_loop` (`src/frontend/parser.rs`). -/
def build_for_loop_step (control_type : Ty) (tok : StepClause) : ASTNode :=
  match tok with
  | StepClause.expressionTok built => built
  | StepClause.termTok built => ASTNode.Expression built none none
  | StepClause.otherTok =>
      ASTNode.Term (ASTNode.Value control_type (Literal.Integer 1))
  | StepClause.absent =>
      ASTNode.Term (ASTNode.Value control_type (Literal.Integer 1))

/-! ## `src/errors.rs`: user-facing error values -/

/-- Mirror of the error structs of `errors.rs`, as one sum (each Rust struct
is a distinct `Box<dyn Error>` payload; only the carried identifier matters). -/
inductive SemanticError where
  | SymbolNotFoundError (id : String)
  | IncorrectDatatype
  | IncorrectNumArguments (id : String)
  | BadFunctionReturn (id : String)
  | ImmutableReassignmentError (id : String)
  deriving DecidableEq, Repr

/-- Failure mode of an embedded Rust function: either a `Result::Err` value
(`user`) or a `panic!`/`todo!`/`.unwrap()` abort (`panic`). -/
inductive VError where
  | user (e : SemanticError)
  | panic
  deriving DecidableEq, Repr

/-- Models Rust `.unwrap()` on a `Result`: an `Err` value becomes a panic. -/
def unwrapE {α : Type} : Except VError α → Except VError α
  | Except.ok a => Except.ok a
  | Except.error _ => Except.error VError.panic

/-! ## `src/semantics.rs`: symbol table -/

/-- Mirror of `semantics.rs` `enum SymbolTableRow` (the `Box` parent pointer
becomes a plain recursive field). -/
inductive SymbolTableRow where
  | Variable (identifier : String) (primitive_type : Ty) (mutability : Mutability)
      (parent_scope : Nat) (parent : SymbolTableRow)
  | Function (identifier : String) (return_type : Ty) (parameters : List Ty)
      (scope : Nat) (parent_scope : Nat)
  | ScopeBlock (identifier : String) (scope : Nat) (parent_scope : Nat)
      (parent : SymbolTableRow)
  deriving DecidableEq, Repr

/-- Mirror of `SymbolTableRow::get_identifier`. -/
def SymbolTableRow.get_identifier : SymbolTableRow → String
  | SymbolTableRow.Variable identifier _ _ _ _ => identifier
  | SymbolTableRow.Function identifier _ _ _ _ => identifier
  | SymbolTableRow.ScopeBlock identifier _ _ _ => identifier

/-- Mirror of `SymbolTableRow::get_scope_id`. -/
def SymbolTableRow.get_scope_id : SymbolTableRow → Nat
  | SymbolTableRow.Variable _ _ _ parent_scope _ => parent_scope
  | SymbolTableRow.Function _ _ _ scope _ => scope
  | SymbolTableRow.ScopeBlock _ scope _ _ => scope

/-- Mirror of `SymbolTableRow::get_scope_type`; the `panic!` on a scope block
becomes `none`. -/
def SymbolTableRow.get_scope_type : SymbolTableRow → Option Ty
  | SymbolTableRow.Variable _ primitive_type _ _ _ => some primitive_type
  | SymbolTableRow.Function _ return_type _ _ _ => some return_type
  | SymbolTableRow.ScopeBlock _ _ _ _ => none

/-- Mirror of `SymbolTableRow::get_mutability`; the `panic!` on a scope block
becomes `none`. -/
def SymbolTableRow.get_mutability : SymbolTableRow → Option Mutability
  | SymbolTableRow.Variable _ _ mutability _ _ => some mutability
  | SymbolTableRow.Function _ _ _ _ _ => some Mutability.Constant
  | SymbolTableRow.ScopeBlock _ _ _ _ => none

/-- Mirror of `SymbolTableRow::get_parent_scope_id`. -/
def SymbolTableRow.get_parent_scope_id : SymbolTableRow → Nat
  | SymbolTableRow.Variable _ _ _ parent_scope _ => parent_scope
  | SymbolTableRow.Function _ _ _ _ parent_scope => parent_scope
  | SymbolTableRow.ScopeBlock _ _ parent_scope _ => parent_scope

/-- Mirror of `SymbolTableRow::get_parent_identifier`. -/
def SymbolTableRow.get_parent_identifier : SymbolTableRow → String
  | SymbolTableRow.Variable _ _ _ _ parent => parent.get_identifier
  | SymbolTableRow.Function _ _ _ _ _ => "global"
  | SymbolTableRow.ScopeBlock _ _ _ parent => parent.get_identifier

/-- Mirror of `semantics.rs` `struct SymbolTable`. -/
structure SymbolTable where
  rows : List SymbolTableRow
  deriving DecidableEq, Repr

/-- The duplicate test of `SymbolTable::add`: same `name` and same
`parent_identifier`. -/
def row_conflicts (row new_row : SymbolTableRow) : Bool :=
  row.get_identifier == new_row.get_identifier &&
    row.get_parent_identifier == new_row.get_parent_identifier

/-- Mirror of `SymbolTable::add`: scans existing rows for a duplicate
`(name, parent_identifier)` pair, panicking (`none`) if one is found,
otherwise pushes the new row. -/
def SymbolTable.add (self : SymbolTable) (new_row : SymbolTableRow) :
    Option SymbolTable :=
  if self.rows.any (fun row => row_conflicts row new_row) then none
  else some ⟨self.rows ++ [new_row]⟩

/-- Mirror of `SymbolTable::get_next_scope_id`. -/
def SymbolTable.get_next_scope_id (self : SymbolTable) : Nat :=
  self.rows.foldl (fun max_id row =>
    if row.get_scope_id ≥ max_id then row.get_scope_id + 1 else max_id) 1

/-- The row filter shared by the `*_in_scope` lookups: the name matches and
the row's parent scope id lies in the scope history. -/
def row_matches (identifier : String) (scope_history : List Nat)
    (row : SymbolTableRow) : Bool :=
  row.get_identifier == identifier && scope_history.contains row.get_parent_scope_id

/-- Mirror of `SymbolTable::get_identifier_in_scope`: first matching row's
scope id, else `SymbolNotFoundError`. -/
def SymbolTable.get_identifier_in_scope (self : SymbolTable) (identifier : String)
    (scope_history : List Nat) : Except VError Nat :=
  go self.rows
where
  go : List SymbolTableRow → Except VError Nat
  | [] => Except.error (VError.user (SemanticError.SymbolNotFoundError identifier))
  | row :: rest =>
      if row_matches identifier scope_history row then Except.ok row.get_scope_id
      else go rest

/-- Mirror of `SymbolTable::get_identifier_type_in_scope`: first matching
row's type (a `panic` for a scope block, which has none), else
`SymbolNotFoundError`. -/
def SymbolTable.get_identifier_type_in_scope (self : SymbolTable)
    (identifier : String) (scope_history : List Nat) : Except VError Ty :=
  go self.rows
where
  go : List SymbolTableRow → Except VError Ty
  | [] => Except.error (VError.user (SemanticError.SymbolNotFoundError identifier))
  | row :: rest =>
      if row_matches identifier scope_history row then
        match row.get_scope_type with
        | some t => Except.ok t
        | none => Except.error VError.panic
      else go rest

/-- Mirror of `SymbolTable::get_mutability_in_scope`. -/
def SymbolTable.get_mutability_in_scope (self : SymbolTable)
    (identifier : String) (scope_history : List Nat) : Except VError Mutability :=
  go self.rows
where
  go : List SymbolTableRow → Except VError Mutability
  | [] => Except.error (VError.user (SemanticError.SymbolNotFoundError identifier))
  | row :: rest =>
      if row_matches identifier scope_history row then
        match row.get_mutability with
        | some m => Except.ok m
        | none => Except.error VError.panic
      else go rest

/-- Mirror of `SymbolTable::get_function_param_types`: first row whose name
matches (regardless of scope); a variable or scope block row yields
`IncorrectDatatype`, a function row yields its parameter types. -/
def SymbolTable.get_function_param_types (self : SymbolTable)
    (identifier : String) : Except VError (List Ty) :=
  go self.rows
where
  go : List SymbolTableRow → Except VError (List Ty)
  | [] => Except.error (VError.user (SemanticError.SymbolNotFoundError identifier))
  | row :: rest =>
      if row.get_identifier == identifier then
        match row with
        | SymbolTableRow.Variable _ _ _ _ _ =>
            Except.error (VError.user SemanticError.IncorrectDatatype)
        | SymbolTableRow.ScopeBlock _ _ _ _ =>
            Except.error (VError.user SemanticError.IncorrectDatatype)
        | SymbolTableRow.Function _ _ parameters _ _ => Except.ok parameters
      else go rest

/-- `(name, parent_identifier)` distinctness of a row list, the invariant of
the symbol table (Bool-valued so concrete tables can be checked by `decide`). -/
def distinct_name_parent_pairs : List SymbolTableRow → Bool
  | [] => true
  | row :: rest =>
      rest.all (fun other => !(row_conflicts other row)) &&
        distinct_name_parent_pairs rest

/-- Folding `SymbolTable::add` over a list of rows, as symbol-table
construction does (every insertion in `generate_sub_symbol_table` goes
through `add`). -/
def add_all (start : SymbolTable) : List SymbolTableRow → Option SymbolTable
  | [] => some start
  | row :: rest => do
      let t ← start.add row
      add_all t rest

/-! ## `src/backend/mips.rs`: frame size and `JumpZero` lowering

The backend consumes the symbol table of `crate::frontend::semantics`, whose
definition is not under `src/`; only the fields the embedded functions read
are modelled: a variable row carries its primitive type and the identifier of
its owning function (field `function_id`). -/

/-- Rows of the backend-side symbol table, reduced to the fields
`get_frame_size` reads. -/
inductive MipsSymbolRow where
  | Variable (primitive_type : Ty) (function_id : String)
  | Other
  deriving DecidableEq, Repr

/-- The accumulator loop of `get_frame_size`: skips rows of other functions,
adds 4 per `int` and 8 per `long` local, hits `todo!()` (`none`) on any other
local type. -/
def get_frame_size_loop (function_id : String) (frame_size : Nat) :
    List MipsSymbolRow → Option Nat
  | [] => some frame_size
  | MipsSymbolRow.Variable primitive_type fid :: rest =>
      if fid ≠ function_id then get_frame_size_loop function_id frame_size rest
      else
        match primitive_type with
        | Ty.Integer => get_frame_size_loop function_id (frame_size + 4) rest
        | Ty.Long => get_frame_size_loop function_id (frame_size + 8) rest
        | _ => none
  | MipsSymbolRow.Other :: rest => get_frame_size_loop function_id frame_size rest

/-- Mirror of `backend/mips.rs` `get_frame_size`: starts from 8 (`// make
space for the return address`) and accumulates over the table's rows. -/
def get_frame_size (function_id : String) (rows : List MipsSymbolRow) : Option Nat :=
  get_frame_size_loop function_id 8 rows

/-- Mirror of the `FuncStart` arm of `generate_mips`: label line, frame
pointer move, stack-pointer decrement by the frame size, saved return
address. -/
def lower_func_start (name : String) (rows : List MipsSymbolRow) :
    Option (List String) :=
  (get_frame_size name rows).map (fun frame_size =>
    [name ++ ": # start func",
     "\tmove $fp, $sp",
     "\taddiu $sp, $sp, -" ++ toString frame_size,
     "\tsw $ra, 0($sp)"])

/-- Mirror of the `JumpZero(label)` arm of `generate_mips`.  The typed
operand stack `stack_types` is a `Vec` pushed/popped at the end; it is
modelled as a list with the top at the head.  `stack_types.pop().unwrap()`
on an empty stack and the `todo!()` arm become `none`. -/
def lower_jump_zero (label : String) (stack_types : List Ty) :
    Option (List Ty × List String) :=
  match stack_types with
  | [] => none
  | operand_type :: rest =>
      match operand_type with
      | Ty.Integer => some (rest,
          ["\taddi $sp, $sp, 4 # jump zero int",
           "\tlw $t0, 0($sp)",
           "\tbnez $t0, " ++ label ++ "\n"])
      | Ty.Long => some (rest,
          ["\taddi $sp, $sp, 8 # jump zero long",
           "\tlw $t0, 0($sp)",
           "\tlw $t1, -4($sp)",
           "\tseq $t0, $t0, $zero",
           "\tseq $t1, $t1, $zero",
           "\tand $t0, $t0, $t1",
           "\tmove $t1, $zero",
           "\tbnez $t0, " ++ label ++ "\n"])
      | _ => none

/-! ## `src/intermediate_gen.rs`: the IR emitter -/

/-- Mirror of `intermediate_gen.rs` `enum Argument` (`u8`/`i16`/`i32`
payloads as `Int`). -/
inductive Argument where
  | Byte (v : Int)
  | Integer (v : Int)
  | Long (v : Int)
  | Boolean (b : Bool)
  | Char (c : Char)
  deriving DecidableEq, Repr

/-- Mirror of `intermediate_gen.rs` `enum IntermediateInstr`. -/
inductive IntermediateInstr where
  | Add
  | Sub
  | Div
  | Mult
  | BitwiseAnd
  | BitwiseOr
  | BitwiseXor
  | Complement
  | LogicNeg
  | LogicAnd
  | LogicOr
  | LogicXor
  | LeftShiftLogical
  | LeftShiftArithmetic
  | RightShiftLogical
  | NumNeg
  | GreaterThan
  | LessThan
  | GreaterEqual
  | LessEqual
  | Equal
  | NotEqual
  | Jump (label : String)
  | JumpZero (label : String)
  | JumpNotZero (label : String)
  | Call (name : String)
  | Push (t : Ty) (arg : Argument)
  | Load (t : Ty) (addr : Nat)
  | Store (t : Ty) (addr : Nat)
  | Return (t : Ty)
  | FuncStart (name : String)
  | FuncEnd (name : String)
  | Label (label : String)
  | Cast (from_type : Ty) (into : Ty)
  deriving DecidableEq, Repr

/-- Mirror of `intermediate_gen.rs` `struct AddrTypePair`. -/
structure AddrTypePair where
  address : Nat
  var_type : Ty
  deriving DecidableEq, Repr

/-- Mirror of `intermediate_gen.rs` `struct LabelContext`. -/
structure LabelContext where
  ieie_return_label : Option String
  loop_break_label : Option String
  loop_continue_label : Option String
  deriving DecidableEq, Repr

/-- Mirror of `LabelContext::new`. -/
def LabelContext.new : LabelContext := ⟨none, none, none⟩

/-- Mirror of `LabelContext::update_ieie`. -/
def LabelContext.update_ieie (self : LabelContext) (label : String) : LabelContext :=
  { self with ieie_return_label := some label }

/-- Mirror of `LabelContext::update_break`. -/
def LabelContext.update_break (self : LabelContext) (label : String) : LabelContext :=
  { self with loop_break_label := some label }

/-- Mirror of `LabelContext::update_continue`. -/
def LabelContext.update_continue (self : LabelContext) (label : String) : LabelContext :=
  { self with loop_continue_label := some label }

/-- Mirror of `gen_operator_code`. -/
def gen_operator_code : Operator → IntermediateInstr
  | Operator.Addition => IntermediateInstr.Add
  | Operator.Subtraction => IntermediateInstr.Sub
  | Operator.Multiplication => IntermediateInstr.Mult
  | Operator.Division => IntermediateInstr.Div
  | Operator.Complement => IntermediateInstr.Complement
  | Operator.NegateNumerical => IntermediateInstr.NumNeg
  | Operator.NegateLogical => IntermediateInstr.LogicNeg
  | Operator.And => IntermediateInstr.BitwiseAnd
  | Operator.Or => IntermediateInstr.BitwiseOr
  | Operator.XOr => IntermediateInstr.BitwiseXor
  | Operator.LeftShiftLogical => IntermediateInstr.LeftShiftLogical
  | Operator.LeftShiftArithmetic => IntermediateInstr.LeftShiftArithmetic
  | Operator.RightShiftLogical => IntermediateInstr.RightShiftLogical

/-- Mirror of `gen_boolean_operator_code`. -/
def gen_boolean_operator_code : BooleanOperator → IntermediateInstr
  | BooleanOperator.Equal => IntermediateInstr.Equal
  | BooleanOperator.NotEqual => IntermediateInstr.NotEqual
  | BooleanOperator.Greater => IntermediateInstr.GreaterThan
  | BooleanOperator.GreaterOrEqual => IntermediateInstr.GreaterEqual
  | BooleanOperator.Less => IntermediateInstr.LessThan
  | BooleanOperator.LessOrEqual => IntermediateInstr.LessEqual
  | BooleanOperator.Invert => IntermediateInstr.LogicNeg

/-- Mirror of `gen_boolean_connector_code`. -/
def gen_boolean_connector_code : BooleanConnector → IntermediateInstr
  | BooleanConnector.And => IntermediateInstr.LogicAnd
  | BooleanConnector.Or => IntermediateInstr.LogicOr
  | BooleanConnector.XOr => IntermediateInstr.LogicXor

/-- Mirror of `get_var_repr`. -/
def get_var_repr (func_id id : String) : String := func_id ++ "_" ++ id

/-- Lowercase hexadecimal rendering of a counter, as Rust's
`format!("_{:x}", n)` does. -/
def hex_string (n : Nat) : String := String.mk (Nat.toDigits 16 n)

/-- The mutable context of `gen_intermediate_code`: the growing instruction
vector, the identifier-to-address map, the two process-wide monotonic
counters (`NEXT_ADDRESS`, starting at 0, and `NEXT_LABEL`, starting at 1)
and the label context, all threaded explicitly. -/
structure EmitState where
  instructions : List IntermediateInstr
  memory_map : List (String × AddrTypePair)
  next_address : Nat
  next_label : Nat
  label_context : LabelContext
  deriving DecidableEq, Repr

/-- The emitter's starting state (fresh counters, empty label context). -/
def EmitState.init : EmitState := ⟨[], [], 0, 1, LabelContext.new⟩

/-- Mirror of `get_next_label`: returns `_<hex-counter>` and bumps the
counter. -/
def EmitState.get_next_label (st : EmitState) : String × EmitState :=
  ("_" ++ hex_string st.next_label, { st with next_label := st.next_label + 1 })

/-- Mirror of `instructions.push(i)`. -/
def EmitState.push (st : EmitState) (i : IntermediateInstr) : EmitState :=
  { st with instructions := st.instructions ++ [i] }

/-- Mirror of `NEXT_ADDRESS.fetch_add(1, ...)`. -/
def EmitState.fetch_add_address (st : EmitState) : Nat × EmitState :=
  (st.next_address, { st with next_address := st.next_address + 1 })

/-- Mirror of `memory_map.insert(key, value)` (lookup finds the most recent
insertion, as `HashMap::insert` overwrites). -/
def EmitState.mm_insert (st : EmitState) (key : String) (value : AddrTypePair) :
    EmitState :=
  { st with memory_map := (key, value) :: st.memory_map }

/-- Mirror of `memory_map.get(key)`. -/
def EmitState.mm_get (st : EmitState) (key : String) : Option AddrTypePair :=
  st.memory_map.lookup key

mutual

/-- Mirror of `gen_intermediate_code` (`intermediate_gen.rs`): `panic!`,
`todo!` and `.unwrap()` failures yield `none`; the `&mut` instruction
vector, memory map, label context and the static counters are threaded
through `EmitState`. -/
def gen_intermediate_code (root : ASTNode) (primitive_type : Option Ty)
    (func_name : String) (st : EmitState) : Option EmitState :=
  match root with
  | ASTNode.Function return_type identifier parameters statements _ => do
      let st := st.push (IntermediateInstr.FuncStart identifier)
      let st ← gen_list parameters none identifier st
      let st ← gen_list statements (some return_type) identifier st
      pure (st.push (IntermediateInstr.FuncEnd identifier))
  | ASTNode.ReturnStatement expression => do
      let st ← gen_intermediate_code expression none func_name st
      match primitive_type with
      | some t => pure (st.push (IntermediateInstr.Return t))
      | none => none
  | ASTNode.VarDeclStatement var_type _ identifier value => do
      let st ← match value with
        | ASTNode.Expression _ _ _ => gen_intermediate_code value none func_name st
        | ASTNode.TernaryExpression _ _ _ => gen_intermediate_code value none func_name st
        | _ => none
      let (address, st) := st.fetch_add_address
      let st := st.mm_insert (get_var_repr func_name identifier) ⟨address, var_type⟩
      pure (st.push (IntermediateInstr.Store var_type address))
  | ASTNode.VarAssignStatement identifier value =>
      match value with
      | ASTNode.Expression _ _ _ => do
          let st ← gen_intermediate_code value none func_name st
          match st.mm_get (get_var_repr func_name identifier) with
          | some metadata =>
              pure (st.push (IntermediateInstr.Store metadata.var_type metadata.address))
          | none => none
      | _ => some st
  | ASTNode.Expression lhs operator rhs => do
      let st ← gen_intermediate_code lhs none func_name st
      let st ← match rhs with
        | some rhs => gen_intermediate_code rhs none func_name st
        | none => pure st
      match operator with
      | some op => pure (st.push (gen_operator_code op))
      | none => pure st
  | ASTNode.Term child => gen_intermediate_code child none func_name st
  | ASTNode.Value literal_type value =>
      let argument := match value with
        | Literal.Byte b => Argument.Byte b
        | Literal.Integer i => Argument.Integer i
        | Literal.Long l => Argument.Long l
        | Literal.Boolean b => Argument.Boolean b
        | Literal.Char c => Argument.Char c
      some (st.push (IntermediateInstr.Push literal_type argument))
  | ASTNode.Identifier identifier =>
      match st.mm_get (get_var_repr func_name identifier) with
      | some metadata =>
          some (st.push (IntermediateInstr.Load metadata.var_type metadata.address))
      | none => none
  | ASTNode.Parameter param_type identifier =>
      let (address, st) := st.fetch_add_address
      some (st.mm_insert (get_var_repr func_name identifier) ⟨address, param_type⟩)
  | ASTNode.FunctionCall identifier arguments => do
      let st ← gen_list arguments none func_name st
      pure (st.push (IntermediateInstr.Call identifier))
  | ASTNode.IfElifElseStatement statements => do
      let (return_label, st) := st.get_next_label
      let st := { st with label_context := st.label_context.update_ieie return_label }
      let st ← gen_list statements none func_name st
      pure (st.push (IntermediateInstr.Label return_label))
  | ASTNode.IfStatement condition statements _ => do
      let (label, st) := st.get_next_label
      let st ← gen_intermediate_code condition none func_name st
      let st := st.push (IntermediateInstr.JumpZero label)
      let st ← gen_list statements none func_name st
      match st.label_context.ieie_return_label with
      | some return_label =>
          pure ((st.push (IntermediateInstr.Jump return_label)).push
            (IntermediateInstr.Label label))
      | none => none
  | ASTNode.ElseStatement statements _ => gen_list statements none func_name st
  | ASTNode.BooleanExpression lhs operator connector rhs => do
      let st ← gen_intermediate_code lhs none func_name st
      let st ← match rhs with
        | some rhs => gen_intermediate_code rhs none func_name st
        | none => pure st
      let st := match operator with
        | some operator => st.push (gen_boolean_operator_code operator)
        | none => st
      pure (match connector with
        | some connector => st.push (gen_boolean_connector_code connector)
        | none => st)
  | ASTNode.BooleanTerm lhs operator rhs => do
      let st ← gen_intermediate_code lhs none func_name st
      let st ← match rhs with
        | some rhs => gen_intermediate_code rhs none func_name st
        | none => pure st
      pure (match operator with
        | some operator => st.push (gen_boolean_operator_code operator)
        | none => st)
  | ASTNode.TypeCast from_node into => do
      let st ← gen_intermediate_code from_node none func_name st
      let from_type ← match from_node with
        | ASTNode.Identifier identifier =>
            (st.mm_get (get_var_repr func_name identifier)).map (fun m => m.var_type)
        | ASTNode.Value literal_type _ => some literal_type
        | _ => none
      pure (st.push (IntermediateInstr.Cast from_type into))
  | ASTNode.IndefLoop statements _ => do
      let (continue_label, st) := st.get_next_label
      let (return_label, st) := st.get_next_label
      let st := { st with label_context :=
        (st.label_context.update_continue continue_label).update_break return_label }
      let st := st.push (IntermediateInstr.Label continue_label)
      let st ← gen_list statements none func_name st
      pure ((st.push (IntermediateInstr.Jump continue_label)).push
        (IntermediateInstr.Label return_label))
  | ASTNode.WhileLoop condition statements _ => do
      let (start_label, st) := st.get_next_label
      let (return_label, st) := st.get_next_label
      let st := { st with label_context :=
        (st.label_context.update_continue start_label).update_break return_label }
      let st := st.push (IntermediateInstr.Label start_label)
      let st ← gen_intermediate_code condition none func_name st
      let st := st.push (IntermediateInstr.JumpZero return_label)
      let st ← gen_list statements none func_name st
      pure ((st.push (IntermediateInstr.Jump start_label)).push
        (IntermediateInstr.Label return_label))
  | ASTNode.ForLoop control_type control_identifier control_initial limit step
      statements _ => do
      let st ← gen_intermediate_code control_initial none func_name st
      let (address, st) := st.fetch_add_address
      let st := st.mm_insert (get_var_repr func_name control_identifier)
        ⟨address, control_type⟩
      let st := st.push (IntermediateInstr.Store control_type address)
      let (start_label, st) := st.get_next_label
      let (return_label, st) := st.get_next_label
      let st := { st with label_context :=
        (st.label_context.update_continue start_label).update_break return_label }
      let st := st.push (IntermediateInstr.Label start_label)
      let st ← gen_intermediate_code limit none func_name st
      let st := st.push IntermediateInstr.GreaterThan
      let st := st.push (IntermediateInstr.JumpNotZero return_label)
      let st ← gen_list statements none func_name st
      let st ← gen_intermediate_code step none func_name st
      let st ← match st.mm_get (get_var_repr func_name control_identifier) with
        | some metadata =>
            some (st.push (IntermediateInstr.Load metadata.var_type metadata.address))
        | none => none
      let st := st.push IntermediateInstr.Add
      let st ← match st.mm_get (get_var_repr func_name control_identifier) with
        | some metadata =>
            some (st.push (IntermediateInstr.Store metadata.var_type metadata.address))
        | none => none
      pure ((st.push (IntermediateInstr.Jump start_label)).push
        (IntermediateInstr.Label return_label))
  | ASTNode.Break =>
      match st.label_context.loop_break_label with
      | some label => some (st.push (IntermediateInstr.Jump label))
      | none => none
  | ASTNode.Continue =>
      match st.label_context.loop_continue_label with
      | some label => some (st.push (IntermediateInstr.Jump label))
      | none => none
  | ASTNode.TernaryExpression condition if_true if_false => do
      let (return_label, st) := st.get_next_label
      let (false_label, st) := st.get_next_label
      let st ← gen_intermediate_code condition none func_name st
      let st := st.push (IntermediateInstr.JumpZero false_label)
      let st ← gen_intermediate_code if_true none func_name st
      let st := st.push (IntermediateInstr.Jump return_label)
      let st := st.push (IntermediateInstr.Label false_label)
      let st ← gen_intermediate_code if_false none func_name st
      pure (st.push (IntermediateInstr.Label return_label))

/-- Sequential emission over a statement/parameter/argument list, as the
`for` loops in `gen_intermediate_code` do. -/
def gen_list (nodes : List ASTNode) (primitive_type : Option Ty)
    (func_name : String) (st : EmitState) : Option EmitState :=
  match nodes with
  | [] => some st
  | node :: rest => do
      let st ← gen_intermediate_code node primitive_type func_name st
      gen_list rest primitive_type func_name st

end

/-- Mirror of `generate_program_intermediate`: each top-level node is
emitted with `primitive_type = None`, `func_name = "global"` and a fresh
clone of the empty label context. -/
def generate_program_intermediate (ast : List ASTNode) : Option EmitState :=
  go ast EmitState.init
where
  go : List ASTNode → EmitState → Option EmitState
  | [], st => some st
  | node :: rest, st => do
      let st' ← gen_intermediate_code node none "global"
        { st with label_context := LabelContext.new }
      go rest st'

/-- True for the control-transfer instructions a short-circuit lowering
would need (used to state that boolean expressions emit none of them). -/
def is_branch : IntermediateInstr → Bool
  | IntermediateInstr.Jump _ => true
  | IntermediateInstr.JumpZero _ => true
  | IntermediateInstr.JumpNotZero _ => true
  | _ => false

/-- Frame size as claim C3 states it (definition follows the claim's words,
for comparison with `get_frame_size`): byte width 4 for byte/char/bool/int,
8 for long — float/double/string do not exist in this iteration's `Type`
enum, and `void` locals cannot be declared. -/
def claimed_width : Ty → Nat
  | Ty.Long => 8
  | _ => 4

/-- Sum of the claimed byte widths of a function's locals, per claim C3. -/
def claimed_frame_size (function_id : String) : List MipsSymbolRow → Nat
  | [] => 0
  | MipsSymbolRow.Variable primitive_type fid :: rest =>
      (if fid = function_id then claimed_width primitive_type else 0) +
        claimed_frame_size function_id rest
  | MipsSymbolRow.Other :: rest => claimed_frame_size function_id rest

/-! ## `src/semantics.rs`: the semantic validator -/

mutual

/-- Mirror of `validate_term_of_type`: checks that a `Term` node's child
validates at the required type.  A caught `Err` from the expression check is
rewritten to `IncorrectDatatype` (a Rust panic inside it still propagates). -/
def validate_term_of_type (node : ASTNode) (required_type : Ty)
    (symbol_table : SymbolTable) (scope_history : List Nat) : Except VError Unit :=
  match node with
  | ASTNode.Term child =>
      match child with
      | ASTNode.Expression _ _ _ =>
          match validate_expression_of_type child required_type symbol_table scope_history with
          | Except.ok _ => Except.ok ()
          | Except.error (VError.user _) =>
              Except.error (VError.user SemanticError.IncorrectDatatype)
          | Except.error VError.panic => Except.error VError.panic
      | ASTNode.Value literal_type _ =>
          if literal_type ≠ required_type then
            Except.error (VError.user SemanticError.IncorrectDatatype)
          else Except.ok ()
      | ASTNode.Identifier identifier => do
          let t ← symbol_table.get_identifier_type_in_scope identifier scope_history
          if t ≠ required_type then
            Except.error (VError.user SemanticError.IncorrectDatatype)
          else Except.ok ()
      | ASTNode.FunctionCall identifier _ => do
          let t ← unwrapE (symbol_table.get_identifier_type_in_scope identifier [0])
          if t ≠ required_type then
            Except.error (VError.user SemanticError.IncorrectDatatype)
          else Except.ok ()
      | ASTNode.TypeCast from_node _ =>
          match from_node with
          | ASTNode.Identifier identifier => do
              let t ← unwrapE
                (symbol_table.get_identifier_type_in_scope identifier scope_history)
              if t ≠ required_type then
                Except.error (VError.user SemanticError.IncorrectDatatype)
              else Except.ok ()
          | ASTNode.Value literal_type _ =>
              if literal_type ≠ required_type then
                Except.error (VError.user SemanticError.IncorrectDatatype)
              else Except.ok ()
          | _ => Except.error VError.panic
      | _ => Except.error VError.panic
  | _ => Except.error VError.panic

/-- Mirror of `validate_expression_of_type`: both operands must validate at
the required type; a binary operator on the boolean required type panics. -/
def validate_expression_of_type (node : ASTNode) (required_type : Ty)
    (symbol_table : SymbolTable) (scope_history : List Nat) : Except VError Unit :=
  match node with
  | ASTNode.Expression lhs operator rhs => do
      let _ ← validate_term_of_type lhs required_type symbol_table scope_history
      let _ ← match rhs with
        | none => Except.ok ()
        | some term => validate_term_of_type term required_type symbol_table scope_history
      match operator with
      | none => Except.ok ()
      | some _ =>
          match required_type with
          | Ty.Boolean => Except.error VError.panic
          | _ => Except.ok ()
  | _ => Except.error VError.panic

end

/-- Mirror of `find_valid_type_of_node`: computes the type an
expression/term/value/identifier node would have, panicking on mismatched
binary operands. -/
def find_valid_type_of_node (node : ASTNode) (symbol_table : SymbolTable)
    (scope_history : List Nat) : Except VError Ty :=
  match node with
  | ASTNode.Expression lhs _ rhs => do
      let lhs_type ← unwrapE (find_valid_type_of_node lhs symbol_table scope_history)
      match rhs with
      | none => Except.ok lhs_type
      | some rhs => do
          let rhs_type ← unwrapE (find_valid_type_of_node rhs symbol_table scope_history)
          if lhs_type = rhs_type then Except.ok lhs_type
          else Except.error VError.panic
  | ASTNode.Term child => find_valid_type_of_node child symbol_table scope_history
  | ASTNode.Value literal_type _ => Except.ok literal_type
  | ASTNode.Identifier identifier =>
      symbol_table.get_identifier_type_in_scope identifier scope_history
  | _ => Except.error VError.panic

/-- Mirror of `validate_boolean_operator_with_args`: all failures are
`panic!`s. -/
def validate_boolean_operator_with_args (lhs_type rhs_type : Ty)
    (operator : BooleanOperator) : Except VError Unit :=
  match operator with
  | BooleanOperator.Equal =>
      if lhs_type ≠ rhs_type ∨ lhs_type = Ty.Void then Except.error VError.panic
      else Except.ok ()
  | BooleanOperator.NotEqual =>
      if lhs_type ≠ rhs_type ∨ lhs_type = Ty.Void then Except.error VError.panic
      else Except.ok ()
  | BooleanOperator.Greater =>
      if lhs_type ≠ rhs_type ∨ (lhs_type ≠ Ty.Integer ∧ lhs_type ≠ Ty.Long) then
        Except.error VError.panic
      else Except.ok ()
  | BooleanOperator.GreaterOrEqual =>
      if lhs_type ≠ rhs_type ∨ (lhs_type ≠ Ty.Integer ∧ lhs_type ≠ Ty.Long) then
        Except.error VError.panic
      else Except.ok ()
  | BooleanOperator.Less =>
      if lhs_type ≠ rhs_type ∨ (lhs_type ≠ Ty.Integer ∧ lhs_type ≠ Ty.Long) then
        Except.error VError.panic
      else Except.ok ()
  | BooleanOperator.LessOrEqual =>
      if lhs_type ≠ rhs_type ∨ (lhs_type ≠ Ty.Integer ∧ lhs_type ≠ Ty.Long) then
        Except.error VError.panic
      else Except.ok ()
  | BooleanOperator.Invert =>
      if lhs_type ≠ Ty.Boolean ∨ rhs_type ≠ Ty.Void then Except.error VError.panic
      else Except.ok ()

/-- Mirror of `validate_boolean_term` (its recursive `.unwrap()` calls turn
inner errors into panics). -/
def validate_boolean_term (node : ASTNode) (required_type : Ty)
    (symbol_table : SymbolTable) (scope_history : List Nat) : Except VError Ty :=
  match node with
  | ASTNode.BooleanTerm lhs operator rhs => do
      let lhs_type : Option Ty ← match lhs with
        | ASTNode.BooleanTerm _ _ _ =>
            (unwrapE (validate_boolean_term lhs required_type symbol_table
              scope_history)).map some
        | ASTNode.Term _ => do
            let term_type ← unwrapE
              (find_valid_type_of_node lhs symbol_table scope_history)
            let _ ← unwrapE
              (validate_term_of_type lhs term_type symbol_table scope_history)
            pure (some term_type)
        | _ => Except.error VError.panic
      let rhs_type : Option Ty ← match rhs with
        | some r =>
            match r with
            | ASTNode.BooleanTerm _ _ _ =>
                (unwrapE (validate_boolean_term r required_type symbol_table
                  scope_history)).map some
            | ASTNode.Term _ => do
                let term_type ← unwrapE
                  (find_valid_type_of_node r symbol_table scope_history)
                let _ ← unwrapE
                  (validate_term_of_type r term_type symbol_table scope_history)
                pure (some term_type)
            | _ => Except.error VError.panic
        | none => pure none
      match operator with
      | some op => do
          let _ ← unwrapE (validate_boolean_operator_with_args
            (lhs_type.getD Ty.Void) (rhs_type.getD Ty.Void) op)
          pure Ty.Boolean
      | none => pure (lhs_type.getD Ty.Void)
  | _ => Except.error VError.panic

/-- Mirror of `validate_boolean_expr` (the `operator` field is not examined
by the Rust code). -/
def validate_boolean_expr (node : ASTNode) (required_type : Ty)
    (symbol_table : SymbolTable) (scope_history : List Nat) : Except VError Ty :=
  match node with
  | ASTNode.BooleanExpression lhs _ connector rhs => do
      let lhs_type ← match lhs with
        | ASTNode.BooleanExpression _ _ _ _ =>
            unwrapE (validate_boolean_expr lhs required_type symbol_table scope_history)
        | ASTNode.BooleanTerm _ _ _ =>
            unwrapE (validate_boolean_term lhs required_type symbol_table scope_history)
        | _ => Except.error VError.panic
      let rhs_type : Option Ty ← match rhs with
        | some r =>
            match r with
            | ASTNode.BooleanExpression _ _ _ _ =>
                (unwrapE (validate_boolean_expr r required_type symbol_table
                  scope_history)).map some
            | ASTNode.BooleanTerm _ _ _ =>
                (unwrapE (validate_boolean_term r required_type symbol_table
                  scope_history)).map some
            | _ => Except.error VError.panic
        | none => pure none
      match connector with
      | some _ =>
          if lhs_type ≠ Ty.Boolean ∨ rhs_type.getD Ty.Boolean ≠ Ty.Boolean then
            Except.error VError.panic
          else pure lhs_type
      | none => pure lhs_type
  | _ => Except.error VError.panic

mutual

/-- Mirror of `check_if_has_break`. -/
def check_if_has_break : ASTNode → Bool
  | ASTNode.Break => true
  | ASTNode.IfElifElseStatement statements => check_if_has_break_list statements
  | ASTNode.IfStatement _ statements _ => check_if_has_break_list statements
  | ASTNode.ElseStatement statements _ => check_if_has_break_list statements
  | _ => false

/-- The `for statement in statements` search inside `check_if_has_break`. -/
def check_if_has_break_list : List ASTNode → Bool
  | [] => false
  | s :: rest => check_if_has_break s || check_if_has_break_list rest

end

/-- Mirror of `validate_indef_loop_has_break`: `true` when some statement
contains a break, otherwise a `panic!`; non-loop nodes also panic. -/
def validate_indef_loop_has_break (node : ASTNode) : Except VError Bool :=
  match node with
  | ASTNode.IndefLoop statements _ =>
      if check_if_has_break_list statements then Except.ok true
      else Except.error VError.panic
  | _ => Except.error VError.panic

/-- The argument-type extraction of the `FunctionCall` arm of
`semantic_validation_subtree`: literal arguments contribute their literal
type, identifiers their resolved type (`.unwrap()`), anything else panics. -/
def function_call_arg_types (symbol_table : SymbolTable)
    (arguments : List ASTNode) (scope_history : List Nat) :
    Except VError (List Ty) :=
  match arguments with
  | [] => Except.ok []
  | arg :: rest => do
      let t ← match arg with
        | ASTNode.Value literal_type _ => Except.ok literal_type
        | ASTNode.Identifier identifier =>
            unwrapE (symbol_table.get_identifier_type_in_scope identifier scope_history)
        | _ => Except.error VError.panic
      let ts ← function_call_arg_types symbol_table rest scope_history
      pure (t :: ts)

/-- The element-wise parameter/argument comparison of the `FunctionCall`
arm (run after the length check, so lengths agree). -/
def check_call_arg_types : List Ty → List Ty → Except VError Unit
  | p :: ps, a :: rest =>
      if p ≠ a then Except.error (VError.user SemanticError.IncorrectDatatype)
      else check_call_arg_types ps rest
  | _, _ => Except.ok ()

mutual

/-- Mirror of `semantic_validation_subtree`; the locally mutable
`scope_history` clone is threaded through the loop helpers. -/
def semantic_validation_subtree (node : ASTNode) (symbol_table : SymbolTable)
    (scope_history : List Nat) : Except VError Unit :=
  match node with
  | ASTNode.Function return_type identifier _ statements _ =>
      svs_function_statements symbol_table identifier return_type statements
        scope_history false
  | ASTNode.VarDeclStatement var_type _ _ value =>
      match unwrapE
        (validate_expression_of_type value var_type symbol_table scope_history) with
      | Except.ok _ => Except.ok ()
      | Except.error e => Except.error e
  | ASTNode.VarAssignStatement identifier value => do
      let m ← symbol_table.get_mutability_in_scope identifier scope_history
      if m ≠ Mutability.Mutable then
        Except.error (VError.user (SemanticError.ImmutableReassignmentError identifier))
      else do
        let _ ← symbol_table.get_identifier_in_scope identifier scope_history
        let var_type ← unwrapE
          (symbol_table.get_identifier_type_in_scope identifier scope_history)
        validate_expression_of_type value var_type symbol_table scope_history
  | ASTNode.IfElifElseStatement statements =>
      svs_ieie_arms symbol_table statements scope_history
  | ASTNode.IndefLoop statements scope => do
      let b ← validate_indef_loop_has_break (ASTNode.IndefLoop statements scope)
      if b then svs_loop_statements symbol_table statements scope scope_history
      else Except.error VError.panic
  | ASTNode.ForLoop control_type _ control_initial limit step statements scope => do
      let _ ← unwrapE (do
        let _ ← semantic_validation_subtree control_initial symbol_table scope_history
        match control_initial with
        | ASTNode.Expression _ _ _ =>
            validate_expression_of_type control_initial control_type symbol_table
              scope_history
        | ASTNode.Term _ =>
            validate_term_of_type control_initial control_type symbol_table
              scope_history
        | _ => Except.error VError.panic)
      let _ ← unwrapE (do
        let _ ← semantic_validation_subtree limit symbol_table scope_history
        match limit with
        | ASTNode.Expression _ _ _ =>
            validate_expression_of_type limit control_type symbol_table scope_history
        | ASTNode.Term _ =>
            validate_term_of_type limit control_type symbol_table scope_history
        | _ => Except.error VError.panic)
      let _ ← unwrapE (do
        let _ ← semantic_validation_subtree step symbol_table scope_history
        match step with
        | ASTNode.Expression _ _ _ =>
            validate_expression_of_type step control_type symbol_table scope_history
        | ASTNode.Term _ =>
            validate_term_of_type step control_type symbol_table scope_history
        | _ => Except.error VError.panic)
      svs_loop_statements symbol_table statements scope scope_history
  | ASTNode.WhileLoop _ statements scope =>
      svs_loop_statements symbol_table statements scope scope_history
  | _ => Except.ok ()

/-- The statement loop of the `Function` arm: per statement it pushes the
function's scope id (looked up afresh) onto the history, validates the
statement's subtree, then runs the return/call checks; at the end of the
list a non-void function with no body-level return yields
`BadFunctionReturn`. -/
def svs_function_statements (symbol_table : SymbolTable) (identifier : String)
    (return_type : Ty) (statements : List ASTNode) (scope_history : List Nat)
    (has_return : Bool) : Except VError Unit :=
  match statements with
  | [] =>
      if return_type ≠ Ty.Void ∧ has_return = false then
        Except.error (VError.user (SemanticError.BadFunctionReturn identifier))
      else Except.ok ()
  | statement :: rest => do
      let sid ← symbol_table.get_identifier_in_scope identifier scope_history
      let scope_history' := scope_history ++ [sid]
      let _ ← semantic_validation_subtree statement symbol_table scope_history'
      match statement with
      | ASTNode.ReturnStatement expression => do
          let _ ← validate_expression_of_type expression return_type symbol_table
            scope_history'
          svs_function_statements symbol_table identifier return_type rest
            scope_history' true
      | ASTNode.FunctionCall fc_identifier arguments => do
          let param_types ← symbol_table.get_function_param_types fc_identifier
          let arg_types ← function_call_arg_types symbol_table arguments scope_history'
          if arg_types.length ≠ param_types.length then
            Except.error (VError.user (SemanticError.IncorrectNumArguments fc_identifier))
          else do
            let _ ← check_call_arg_types param_types arg_types
            svs_function_statements symbol_table identifier return_type rest
              scope_history' has_return
      | _ =>
          svs_function_statements symbol_table identifier return_type rest
            scope_history' has_return

/-- The arm loop of the `IfElifElseStatement` arm (inner failures are
`.unwrap()`ed into panics; history pushes persist across arms). -/
def svs_ieie_arms (symbol_table : SymbolTable) (arms : List ASTNode)
    (scope_history : List Nat) : Except VError Unit :=
  match arms with
  | [] => Except.ok ()
  | arm :: rest =>
      match arm with
      | ASTNode.IfStatement condition statements scope => do
          let _ ← unwrapE
            (validate_boolean_expr condition Ty.Boolean symbol_table scope_history)
          let scope_history' ← svs_arm_statements symbol_table statements scope
            scope_history
          svs_ieie_arms symbol_table rest scope_history'
      | ASTNode.ElseStatement statements scope => do
          let scope_history' ← svs_arm_statements symbol_table statements scope
            scope_history
          svs_ieie_arms symbol_table rest scope_history'
      | _ => Except.error VError.panic

/-- The sub-statement loop of an if/else arm: pushes the arm's scope id per
sub-statement and `.unwrap()`s the recursive validation; returns the grown
history. -/
def svs_arm_statements (symbol_table : SymbolTable) (statements : List ASTNode)
    (scope : Nat) (scope_history : List Nat) : Except VError (List Nat) :=
  match statements with
  | [] => Except.ok scope_history
  | s :: rest => do
      let scope_history' := scope_history ++ [scope]
      let _ ← unwrapE (semantic_validation_subtree s symbol_table scope_history')
      svs_arm_statements symbol_table rest scope scope_history'

/-- The statement loop shared by the indefinite/for/while loop arms: pushes
the loop's scope id per statement and propagates failures with `?`. -/
def svs_loop_statements (symbol_table : SymbolTable) (statements : List ASTNode)
    (scope : Nat) (scope_history : List Nat) : Except VError Unit :=
  match statements with
  | [] => Except.ok ()
  | s :: rest => do
      let scope_history' := scope_history ++ [scope]
      let _ ← semantic_validation_subtree s symbol_table scope_history'
      svs_loop_statements symbol_table rest scope scope_history'

end

/-- Mirror of `validate_for_loop_part` (the `ForLoop` arm of
`semantic_validation_subtree` above inlines this body at its three call
sites, as Lean's structural recursion requires; this standalone definition
is definitionally the same computation). -/
def validate_for_loop_part (node : ASTNode) (symbol_table : SymbolTable)
    (scope_history : List Nat) (control_type : Ty) : Except VError Unit := do
  let _ ← semantic_validation_subtree node symbol_table scope_history
  match node with
  | ASTNode.Expression _ _ _ =>
      validate_expression_of_type node control_type symbol_table scope_history
  | ASTNode.Term _ =>
      validate_term_of_type node control_type symbol_table scope_history
  | _ => Except.error VError.panic

/-- Mirror of `semantic_validation`: validates each root with the global
scope history `[0]`. -/
def semantic_validation (root : List ASTNode) (symbol_table : SymbolTable) :
    Except VError Unit :=
  match root with
  | [] => Except.ok ()
  | node :: rest => do
      let _ ← semantic_validation_subtree node symbol_table [0]
      semantic_validation rest symbol_table

/-! ## Concrete programs used by the claim theorems -/

/-- `for(int i = 0; i <= 10; i += 1) {}` as the parser would deliver it
(initial, limit and step wrapped as expressions over terms). -/
def for_loop_example : ASTNode :=
  ASTNode.ForLoop Ty.Integer "i"
    (ASTNode.Expression (ASTNode.Term (ASTNode.Value Ty.Integer (Literal.Integer 0))) none none)
    (ASTNode.Expression (ASTNode.Term (ASTNode.Value Ty.Integer (Literal.Integer 10))) none none)
    (ASTNode.Expression (ASTNode.Term (ASTNode.Value Ty.Integer (Literal.Integer 1))) none none)
    [] 2

/-- `loop { loop { break; } break; }`: an indefinite loop containing an
inner indefinite loop followed by a `break` that should exit the OUTER
loop. -/
def nested_break_example : ASTNode :=
  ASTNode.IndefLoop [ASTNode.IndefLoop [ASTNode.Break] 3, ASTNode.Break] 2

/-- Symbol table holding a single function `int f()` (scope id 1, global
parent scope 0). -/
def example_table : SymbolTable := ⟨[SymbolTableRow.Function "f" Ty.Integer [] 1 0]⟩

/-- `int f() { return true; }`: a non-void function whose only return
statement does not validate at the declared return type. -/
def f_wrong_return : ASTNode :=
  ASTNode.Function Ty.Integer "f" []
    [ASTNode.ReturnStatement (ASTNode.Expression
      (ASTNode.Term (ASTNode.Value Ty.Boolean (Literal.Boolean true))) none none)] 1

end Iridescent

namespace Iridescent

/-! ## Claim theorems (parser and operator table) -/

/-- C8: in `get_binary_operator_from_str`, the spelling `<<` maps to the
logical right shift operator, `>>` to the logical left shift operator and
`>>>` to the arithmetic left shift operator, inverting the customary C
direction of the shift spellings. -/
theorem shift_spellings_inverted :
    get_binary_operator_from_str "<<" = some Operator.RightShiftLogical ∧
    get_binary_operator_from_str ">>" = some Operator.LeftShiftLogical ∧
    get_binary_operator_from_str ">>>" = some Operator.LeftShiftArithmetic := by
  refine ⟨rfl, rfl, rfl⟩

/-! ## Claim theorems (IR emitter) -/

/-- C1: evaluating the emitter on a concrete for loop
(`for(int i = 0; i <= 10; i += 1) {}`) shows the emitted sequence is
init, `Store i`; `Label _1`; code for the limit, `GreaterThan`,
`JumpNotZero _2`; body; step, `Load i`, `Add`, `Store i`; `Jump _1`;
`Label _2` — the claimed `Load i` between `Label start` and the limit code
is NOT emitted (the instruction at index 3, right after the start label, is
the limit push, so `GreaterThan` has only one operand pushed by the
condition). -/
theorem for_loop_emission_missing_load :
    gen_intermediate_code for_loop_example none "main" EmitState.init = some
      ⟨[IntermediateInstr.Push Ty.Integer (Argument.Integer 0),
        IntermediateInstr.Store Ty.Integer 0,
        IntermediateInstr.Label "_1",
        IntermediateInstr.Push Ty.Integer (Argument.Integer 10),
        IntermediateInstr.GreaterThan,
        IntermediateInstr.JumpNotZero "_2",
        IntermediateInstr.Push Ty.Integer (Argument.Integer 1),
        IntermediateInstr.Load Ty.Integer 0,
        IntermediateInstr.Add,
        IntermediateInstr.Store Ty.Integer 0,
        IntermediateInstr.Jump "_1",
        IntermediateInstr.Label "_2"],
       [("main_i", ⟨0, Ty.Integer⟩)], 1, 3,
       ⟨none, some "_2", some "_1"⟩⟩ ∧
    (∀ inst ∈ ([IntermediateInstr.Label "_1",
        IntermediateInstr.Push Ty.Integer (Argument.Integer 10),
        IntermediateInstr.GreaterThan] : List IntermediateInstr),
      inst ≠ IntermediateInstr.Load Ty.Integer 0) := by
  refine ⟨by rfl, by decide⟩

/-- C2: evaluating the emitter on `loop { loop { break; } break; }` shows
the label context is overwritten on entry to the inner loop and never
restored: the outer loop's labels are `_1`/`_2`, yet the `break` emitted
AFTER the inner loop ends jumps to `_4` — the inner loop's break label,
which sits before it in the stream — instead of the outer exit `_2`, and
the final label context still holds the inner loop's labels. -/
theorem nested_break_targets_inner_label :
    gen_intermediate_code nested_break_example none "main" EmitState.init = some
      ⟨[IntermediateInstr.Label "_1",
        IntermediateInstr.Label "_3",
        IntermediateInstr.Jump "_4",
        IntermediateInstr.Jump "_3",
        IntermediateInstr.Label "_4",
        IntermediateInstr.Jump "_4",
        IntermediateInstr.Jump "_1",
        IntermediateInstr.Label "_2"],
       [], 0, 5, ⟨none, some "_4", some "_3"⟩⟩ ∧
    IntermediateInstr.Jump "_4" ≠ IntermediateInstr.Jump "_2" := by
  refine ⟨by rfl, by decide⟩

/-- C7: the `BooleanExpression(lhs, op?, connector?, rhs?)` arm of the
emitter appends the operator instruction (when present) and then the
connector instruction (when present) directly after the code emitted for
lhs and then rhs, and those appended instructions include no jump or
branch: both operands are always materialized, with no short-circuit. -/
theorem boolean_expression_no_short_circuit (lhs : ASTNode)
    (operator : Option BooleanOperator) (connector : Option BooleanConnector)
    (rhs : Option ASTNode) (primitive_type : Option Ty) (func_name : String)
    (st st1 st2 : EmitState)
    (hlhs : gen_intermediate_code lhs none func_name st = some st1)
    (hrhs : (match rhs with
             | some r => gen_intermediate_code r none func_name st1
             | none => some st1) = some st2) :
    ∃ st3,
      gen_intermediate_code (ASTNode.BooleanExpression lhs operator connector rhs)
        primitive_type func_name st = some st3 ∧
      st3.instructions = st2.instructions ++
        (match operator with
         | some op => [gen_boolean_operator_code op]
         | none => []) ++
        (match connector with
         | some c => [gen_boolean_connector_code c]
         | none => []) ∧
      st3.memory_map = st2.memory_map ∧
      (∀ inst ∈ ((match operator with
         | some op => [gen_boolean_operator_code op]
         | none => []) ++
        (match connector with
         | some c => [gen_boolean_connector_code c]
         | none => []) : List IntermediateInstr), is_branch inst = false) := by
  have hop : ∀ op, is_branch (gen_boolean_operator_code op) = false := by
    intro op; cases op <;> rfl
  have hconn : ∀ c, is_branch (gen_boolean_connector_code c) = false := by
    intro c; cases c <;> rfl
  have hgoal : gen_intermediate_code
      (ASTNode.BooleanExpression lhs operator connector rhs)
      primitive_type func_name st = some
        (match connector with
         | some c =>
             (match operator with
              | some op => st2.push (gen_boolean_operator_code op)
              | none => st2).push (gen_boolean_connector_code c)
         | none =>
             match operator with
             | some op => st2.push (gen_boolean_operator_code op)
             | none => st2) := by
    cases rhs with
    | none =>
        have hst : st1 = st2 := by simpa using hrhs
        subst hst
        have harm : gen_intermediate_code
            (ASTNode.BooleanExpression lhs operator connector none)
            primitive_type func_name st =
            (gen_intermediate_code lhs none func_name st).bind (fun s1 =>
              some (match connector with
                | some c =>
                    (match operator with
                     | some op => s1.push (gen_boolean_operator_code op)
                     | none => s1).push (gen_boolean_connector_code c)
                | none =>
                    match operator with
                    | some op => s1.push (gen_boolean_operator_code op)
                    | none => s1)) := rfl
        rw [harm, hlhs, Option.some_bind]
    | some r =>
        have hr : gen_intermediate_code r none func_name st1 = some st2 := by
          simpa using hrhs
        have harm : gen_intermediate_code
            (ASTNode.BooleanExpression lhs operator connector (some r))
            primitive_type func_name st =
            (gen_intermediate_code lhs none func_name st).bind (fun s1 =>
              (gen_intermediate_code r none func_name s1).bind (fun s2 =>
                some (match connector with
                  | some c =>
                      (match operator with
                       | some op => s2.push (gen_boolean_operator_code op)
                       | none => s2).push (gen_boolean_connector_code c)
                  | none =>
                      match operator with
                      | some op => s2.push (gen_boolean_operator_code op)
                      | none => s2))) := rfl
        rw [harm, hlhs, Option.some_bind, hr, Option.some_bind]
  refine ⟨_, hgoal, ?_, ?_, ?_⟩
  · cases operator <;> cases connector <;>
      simp [EmitState.push, List.append_assoc]
  · cases operator <;> cases connector <;> simp [EmitState.push]
  · intro inst h
    cases operator <;> cases connector <;> simp at h <;>
      first
        | (rcases h with rfl; first | exact hop _ | exact hconn _)
        | (rcases h with rfl | rfl
           · exact hop _
           · exact hconn _)

/-- Witness for C7 at a concrete boolean expression
(`true == false && true`-shaped operand layout). -/
theorem boolean_expression_no_short_circuit_witness :
    ∃ st3,
      gen_intermediate_code
        (ASTNode.BooleanExpression
          (ASTNode.Term (ASTNode.Value Ty.Boolean (Literal.Boolean true)))
          (some BooleanOperator.Equal) (some BooleanConnector.And)
          (some (ASTNode.Term (ASTNode.Value Ty.Boolean (Literal.Boolean false)))))
        none "main" EmitState.init = some st3 ∧
      st3.instructions =
        ([IntermediateInstr.Push Ty.Boolean (Argument.Boolean true),
          IntermediateInstr.Push Ty.Boolean (Argument.Boolean false)] ++
         [IntermediateInstr.Equal] ++ [IntermediateInstr.LogicAnd]) ∧
      st3.memory_map = [] ∧
      (∀ inst ∈ ([IntermediateInstr.Equal] ++ [IntermediateInstr.LogicAnd] :
          List IntermediateInstr), is_branch inst = false) := by
  have h := boolean_expression_no_short_circuit
    (ASTNode.Term (ASTNode.Value Ty.Boolean (Literal.Boolean true)))
    (some BooleanOperator.Equal) (some BooleanConnector.And)
    (some (ASTNode.Term (ASTNode.Value Ty.Boolean (Literal.Boolean false))))
    none "main" EmitState.init
    ⟨[IntermediateInstr.Push Ty.Boolean (Argument.Boolean true)], [], 0, 1,
      LabelContext.new⟩
    ⟨[IntermediateInstr.Push Ty.Boolean (Argument.Boolean true),
      IntermediateInstr.Push Ty.Boolean (Argument.Boolean false)], [], 0, 1,
      LabelContext.new⟩
    (by rfl) (by rfl)
  rcases h with ⟨st3, h1, h2, h3, h4⟩
  exact ⟨st3, h1, by simpa using h2, h3, by simpa using h4⟩

/-! ## Claim theorems (semantic validator, C6) -/

/-- Binding a successful `Except` computation runs the continuation. -/
theorem except_bind_ok {ε α β : Type} (a : α) (f : α → Except ε β) :
    (Except.ok a >>= f : Except ε β) = f a := rfl

/-- Binding a failed `Except` computation propagates the error. -/
theorem except_bind_error {ε α β : Type} (e : ε) (f : α → Except ε β) :
    ((Except.error e : Except ε α) >>= f) = Except.error e := rfl

/-- When the statement loop of a non-void function's validation succeeds,
either a return had already been seen, or some body-level return statement
validates at the declared return type. -/
theorem svs_function_ok_has_return (symbol_table : SymbolTable) (identifier : String)
    (return_type : Ty) (hret : return_type ≠ Ty.Void) (statements : List ASTNode) :
    ∀ (scope_history : List Nat) (has_return : Bool),
      svs_function_statements symbol_table identifier return_type statements
        scope_history has_return = Except.ok () →
      has_return = true ∨ ∃ e, ASTNode.ReturnStatement e ∈ statements ∧
        ∃ h', validate_expression_of_type e return_type symbol_table h' =
          Except.ok () := by
  induction statements with
  | nil =>
      intro hist hr h
      rw [svs_function_statements] at h
      by_cases hb : hr = true
      · exact Or.inl hb
      · rw [if_pos ⟨hret, by simpa using hb⟩] at h
        exact Except.noConfusion h
  | cons statement rest ih =>
      intro hist hr h
      rw [svs_function_statements] at h
      rcases hsid : symbol_table.get_identifier_in_scope identifier hist with e | sid
      · simp only [hsid, except_bind_error] at h
        exact Except.noConfusion h
      simp only [hsid, except_bind_ok] at h
      try dsimp only at h
      rcases hsvs : semantic_validation_subtree statement symbol_table
          (hist ++ [sid]) with e | u
      · simp only [hsvs, except_bind_error] at h
        exact Except.noConfusion h
      cases u
      simp only [hsvs, except_bind_ok] at h
      cases statement
      case ReturnStatement e =>
        dsimp only at h
        rcases hv : validate_expression_of_type e return_type symbol_table
            (hist ++ [sid]) with er | u2
        · simp only [hv, except_bind_error] at h
          exact Except.noConfusion h
        cases u2
        exact Or.inr ⟨e, List.mem_cons_self _ _, hist ++ [sid], hv⟩
      case FunctionCall fc args =>
        dsimp only at h
        rcases hp : symbol_table.get_function_param_types fc with er | pt
        · simp only [hp, except_bind_error] at h
          exact Except.noConfusion h
        simp only [hp, except_bind_ok] at h
        rcases ha : function_call_arg_types symbol_table args (hist ++ [sid])
            with er | arg_types
        · simp only [ha, except_bind_error] at h
          exact Except.noConfusion h
        simp only [ha, except_bind_ok] at h
        by_cases hlen : arg_types.length ≠ pt.length
        · rw [if_pos hlen] at h
          exact Except.noConfusion h
        rw [if_neg hlen] at h
        rcases hc : check_call_arg_types pt arg_types with er | u3
        · simp only [hc, except_bind_error] at h
          exact Except.noConfusion h
        cases u3
        simp only [hc, except_bind_ok] at h
        rcases ih _ _ h with hb | ⟨e, hmem, h'⟩
        · exact Or.inl hb
        · exact Or.inr ⟨e, List.mem_cons_of_mem _ hmem, h'⟩
      all_goals
        try dsimp only at h
      all_goals
        rcases ih _ _ h with hb | ⟨e, hmem, h'⟩
        · exact Or.inl hb
        · exact Or.inr ⟨e, List.mem_cons_of_mem _ hmem, h'⟩

/-- When a function body contains no body-level return statement, its
statement loop behaves identically for any return type until the final
check: if the void variant succeeds, the non-void variant ends in
`BadFunctionReturn`. -/
theorem svs_function_no_return_bfr (symbol_table : SymbolTable)
    (identifier : String) (return_type : Ty) (hret : return_type ≠ Ty.Void)
    (statements : List ASTNode) :
    ∀ (scope_history : List Nat),
      (∀ e, ASTNode.ReturnStatement e ∉ statements) →
      svs_function_statements symbol_table identifier Ty.Void statements
        scope_history false = Except.ok () →
      svs_function_statements symbol_table identifier return_type statements
        scope_history false =
        Except.error (VError.user (SemanticError.BadFunctionReturn identifier)) := by
  induction statements with
  | nil =>
      intro hist _ _
      rw [svs_function_statements, if_pos ⟨hret, rfl⟩]
  | cons statement rest ih =>
      intro hist hnr hok
      have hnr_rest : ∀ e, ASTNode.ReturnStatement e ∉ rest :=
        fun e hm => hnr e (List.mem_cons_of_mem _ hm)
      have hn1 : ∀ e, statement ≠ ASTNode.ReturnStatement e :=
        fun e he => hnr e (he ▸ List.mem_cons_self _ _)
      rw [svs_function_statements] at hok ⊢
      rcases hsid : symbol_table.get_identifier_in_scope identifier hist with e | sid
      · simp only [hsid, except_bind_error] at hok
        exact Except.noConfusion hok
      simp only [hsid, except_bind_ok] at hok ⊢
      try dsimp only at hok ⊢
      rcases hsvs : semantic_validation_subtree statement symbol_table
          (hist ++ [sid]) with e | u
      · simp only [hsvs, except_bind_error] at hok
        exact Except.noConfusion hok
      cases u
      simp only [hsvs, except_bind_ok] at hok ⊢
      cases statement
      case ReturnStatement e => exact absurd rfl (hn1 e)
      case FunctionCall fc args =>
        dsimp only at hok ⊢
        rcases hp : symbol_table.get_function_param_types fc with er | pt
        · simp only [hp, except_bind_error] at hok
          exact Except.noConfusion hok
        simp only [hp, except_bind_ok] at hok ⊢
        rcases ha : function_call_arg_types symbol_table args (hist ++ [sid])
            with er | arg_types
        · simp only [ha, except_bind_error] at hok
          exact Except.noConfusion hok
        simp only [ha, except_bind_ok] at hok ⊢
        by_cases hlen : arg_types.length ≠ pt.length
        · rw [if_pos hlen] at hok
          exact Except.noConfusion hok
        rw [if_neg hlen] at hok ⊢
        rcases hc : check_call_arg_types pt arg_types with er | u3
        · simp only [hc, except_bind_error] at hok
          exact Except.noConfusion hok
        cases u3
        simp only [hc, except_bind_ok] at hok ⊢
        exact ih _ hnr_rest hok
      all_goals
        try dsimp only at hok ⊢
      all_goals
        exact ih _ hnr_rest hok

/-- C6 counterexample: `int f() { return true; }` contains no return
validating at `int`, yet validation fails with `IncorrectDatatype` (the
ill-typed return's own error), not `BadFunctionReturn` as the claim
requires. -/
theorem bad_function_return_claim_counterexample :
    semantic_validation_subtree f_wrong_return example_table [0] =
      Except.error (VError.user SemanticError.IncorrectDatatype) ∧
    (Except.error (VError.user SemanticError.IncorrectDatatype) :
        Except VError Unit) ≠
      Except.error (VError.user (SemanticError.BadFunctionReturn "f")) ∧
    (∀ hist : List Nat, validate_expression_of_type
      (ASTNode.Expression
        (ASTNode.Term (ASTNode.Value Ty.Boolean (Literal.Boolean true))) none none)
      Ty.Integer example_table hist =
      Except.error (VError.user SemanticError.IncorrectDatatype)) := by
  refine ⟨rfl, fun h => absurd (Except.error.inj h) (by decide), fun hist => rfl⟩

/-- C6 amended: for a non-void function, (a) if validation succeeds then
some body-level return statement's expression validates at the declared
return type; (b) if the body contains no body-level return at all,
validation never succeeds — and when the rest of the body validates (the
void variant of the same function passes), the error is precisely
`BadFunctionReturn`; a function whose return is present but ill-typed
instead fails with that return's own error. -/
theorem bad_function_return_amended (symbol_table : SymbolTable)
    (return_type : Ty) (identifier : String) (parameters statements : List ASTNode)
    (scope : Nat) (scope_history : List Nat) (hret : return_type ≠ Ty.Void) :
    (semantic_validation_subtree
        (ASTNode.Function return_type identifier parameters statements scope)
        symbol_table scope_history = Except.ok () →
      ∃ e, ASTNode.ReturnStatement e ∈ statements ∧
        ∃ h', validate_expression_of_type e return_type symbol_table h' =
          Except.ok ()) ∧
    ((∀ e, ASTNode.ReturnStatement e ∉ statements) →
      semantic_validation_subtree
        (ASTNode.Function return_type identifier parameters statements scope)
        symbol_table scope_history ≠ Except.ok () ∧
      (semantic_validation_subtree
          (ASTNode.Function Ty.Void identifier parameters statements scope)
          symbol_table scope_history = Except.ok () →
        semantic_validation_subtree
          (ASTNode.Function return_type identifier parameters statements scope)
          symbol_table scope_history =
          Except.error (VError.user (SemanticError.BadFunctionReturn identifier)))) := by
  constructor
  · intro h
    rcases svs_function_ok_has_return symbol_table identifier return_type hret
      statements scope_history false h with hb | hex
    · exact Bool.noConfusion hb
    · exact hex
  · intro hnr
    constructor
    · intro h
      rcases svs_function_ok_has_return symbol_table identifier return_type hret
        statements scope_history false h with hb | ⟨e, hmem, _⟩
      · exact Bool.noConfusion hb
      · exact hnr e hmem
    · intro hv
      exact svs_function_no_return_bfr symbol_table identifier return_type hret
        statements scope_history hnr hv

/-- Witness for C6 amended: `int f() {}` (empty body, so its void variant
validates) fails with exactly `BadFunctionReturn`. -/
theorem bad_function_return_amended_witness :
    semantic_validation_subtree (ASTNode.Function Ty.Integer "f" [] [] 1)
      example_table [0] =
      Except.error (VError.user (SemanticError.BadFunctionReturn "f")) := by
  have h := (bad_function_return_amended example_table Ty.Integer "f" [] [] 1 [0]
    (by decide)).2 (fun e hm => List.not_mem_nil _ hm)
  exact h.2 (by rfl)

/-! ## Claim theorems (MIPS backend) -/

/-- C3 counterexample: for a function with a single `int` local, the claim
predicts a frame size of 4 (sum of local widths), but `get_frame_size`
returns 12 — every frame carries 8 extra bytes for the saved return
address. -/
theorem frame_size_claim_counterexample :
    get_frame_size "main" [MipsSymbolRow.Variable Ty.Integer "main"] = some 12 ∧
    claimed_frame_size "main" [MipsSymbolRow.Variable Ty.Integer "main"] = 4 ∧
    (12 : Nat) ≠ 4 := by
  refine ⟨rfl, rfl, by decide⟩

/-- The frame-size accumulator adds the claimed widths of the function's
locals when they are all `int` or `long`. -/
theorem get_frame_size_loop_eq (function_id : String) (rows : List MipsSymbolRow)
    (h : ∀ pt fid, MipsSymbolRow.Variable pt fid ∈ rows → fid = function_id →
      pt = Ty.Integer ∨ pt = Ty.Long) :
    ∀ acc, get_frame_size_loop function_id acc rows =
      some (acc + claimed_frame_size function_id rows) := by
  induction rows with
  | nil => intro acc; rfl
  | cons row rest ih =>
      intro acc
      have hrest : ∀ pt fid, MipsSymbolRow.Variable pt fid ∈ rest →
          fid = function_id → pt = Ty.Integer ∨ pt = Ty.Long :=
        fun pt fid hm => h pt fid (List.mem_cons_of_mem row hm)
      cases row with
      | Variable pt fid =>
          by_cases hfid : fid = function_id
          · subst hfid
            rcases h pt fid (List.mem_cons_self _ _) rfl with rfl | rfl
            · have e : get_frame_size_loop fid acc
                  (MipsSymbolRow.Variable Ty.Integer fid :: rest) =
                  get_frame_size_loop fid (acc + 4) rest := by
                simp [get_frame_size_loop]
              rw [e, ih hrest (acc + 4), claimed_frame_size, if_pos rfl]
              simp only [Option.some.injEq, claimed_width]
              omega
            · have e : get_frame_size_loop fid acc
                  (MipsSymbolRow.Variable Ty.Long fid :: rest) =
                  get_frame_size_loop fid (acc + 8) rest := by
                simp [get_frame_size_loop]
              rw [e, ih hrest (acc + 8), claimed_frame_size, if_pos rfl]
              simp only [Option.some.injEq, claimed_width]
              omega
          · have e : get_frame_size_loop function_id acc
                (MipsSymbolRow.Variable pt fid :: rest) =
                get_frame_size_loop function_id acc rest := by
              simp [get_frame_size_loop, hfid]
            rw [e, ih hrest acc, claimed_frame_size, if_neg hfid]
            simp
      | Other =>
          have e : get_frame_size_loop function_id acc
              (MipsSymbolRow.Other :: rest) =
              get_frame_size_loop function_id acc rest := by
            simp [get_frame_size_loop]
          rw [e, ih hrest acc, claimed_frame_size]

/-- C3 amended: the frame size emitted at `FuncStart` (the amount by which
`$sp` is decremented) equals 8 — a slot for the saved return address — plus
the sum of the byte widths of the function's locals recorded in the symbol
table, provided every such local is `int` (4 bytes) or `long` (8 bytes);
locals of any other type hit `todo!()` and abort. -/
theorem frame_size_amended (function_id : String) (rows : List MipsSymbolRow)
    (h : ∀ pt fid, MipsSymbolRow.Variable pt fid ∈ rows → fid = function_id →
      pt = Ty.Integer ∨ pt = Ty.Long) :
    get_frame_size function_id rows =
      some (8 + claimed_frame_size function_id rows) ∧
    lower_func_start function_id rows = some
      [function_id ++ ": # start func",
       "\tmove $fp, $sp",
       "\taddiu $sp, $sp, -" ++ toString (8 + claimed_frame_size function_id rows),
       "\tsw $ra, 0($sp)"] := by
  have hfs : get_frame_size function_id rows =
      some (8 + claimed_frame_size function_id rows) :=
    get_frame_size_loop_eq function_id rows h 8
  exact ⟨hfs, by rw [lower_func_start, hfs]; rfl⟩

/-- Witness for C3 amended: a table with two `main` locals (`int` and
`long`) and one local of another function gives frame size 8 + 4 + 8 = 20. -/
theorem frame_size_amended_witness :
    get_frame_size "main"
      [MipsSymbolRow.Variable Ty.Integer "main",
       MipsSymbolRow.Variable Ty.Long "main",
       MipsSymbolRow.Variable Ty.Integer "other"] = some 20 := by
  have h := frame_size_amended "main"
    [MipsSymbolRow.Variable Ty.Integer "main",
     MipsSymbolRow.Variable Ty.Long "main",
     MipsSymbolRow.Variable Ty.Integer "other"]
    (by intro pt fid hm hf; fin_cases hm <;> simp_all)
  have h20 : (8 : Nat) + claimed_frame_size "main"
      [MipsSymbolRow.Variable Ty.Integer "main",
       MipsSymbolRow.Variable Ty.Long "main",
       MipsSymbolRow.Variable Ty.Integer "other"] = 20 := by decide
  rw [h.1, h20]

/-- C4: the `JumpZero` lowering pops one entry from the typed operand stack,
but for an `int` operand it emits `bnez $t0, label` — a branch taken when
the popped value is NONZERO — inverting the instruction's documented
branch-if-zero sense; the `long` case first computes an is-zero flag and
correctly branches on it with `bnez`. -/
theorem jump_zero_int_branch_inverted :
    lower_jump_zero "_5" [Ty.Integer] = some ([],
      ["\taddi $sp, $sp, 4 # jump zero int",
       "\tlw $t0, 0($sp)",
       "\tbnez $t0, _5\n"]) ∧
    lower_jump_zero "_5" [Ty.Long] = some ([],
      ["\taddi $sp, $sp, 8 # jump zero long",
       "\tlw $t0, 0($sp)",
       "\tlw $t1, -4($sp)",
       "\tseq $t0, $t0, $zero",
       "\tseq $t1, $t1, $zero",
       "\tand $t0, $t0, $t1",
       "\tmove $t1, $zero",
       "\tbnez $t0, _5\n"]) ∧
    "\tbnez $t0, _5\n" ≠ "\tbeqz $t0, _5\n" := by
  refine ⟨rfl, rfl, by decide⟩

/-! ## Claim theorems (symbol table) -/

/-- Boolean equality from `DecidableEq` is symmetric. -/
theorem beq_symm {α : Type} [DecidableEq α] (a b : α) : (a == b) = (b == a) := by
  by_cases h : a = b
  · subst h; rfl
  · simp [h, Ne.symm h]

/-- The duplicate test of `SymbolTable::add` is symmetric. -/
theorem row_conflicts_symm (a b : SymbolTableRow) :
    row_conflicts a b = row_conflicts b a := by
  simp only [row_conflicts]
  rw [beq_symm a.get_identifier, beq_symm a.get_parent_identifier]

/-- Appending a row that conflicts with no existing row preserves the
distinctness of `(name, parent_identifier)` pairs. -/
theorem distinct_append_singleton (rows : List SymbolTableRow) (r : SymbolTableRow)
    (h1 : distinct_name_parent_pairs rows = true)
    (h2 : rows.all (fun row => !(row_conflicts row r)) = true) :
    distinct_name_parent_pairs (rows ++ [r]) = true := by
  induction rows with
  | nil => simp [distinct_name_parent_pairs]
  | cons a rest ih =>
      simp only [distinct_name_parent_pairs, Bool.and_eq_true, List.all_eq_true] at h1 h2 ⊢
      refine ⟨?_, ih h1.2 (List.all_eq_true.mpr
        (fun row hrow => h2 row (List.mem_cons_of_mem a hrow)))⟩
      intro other hother
      rcases List.mem_append.mp hother with hmem | hmem
      · exact h1.1 other hmem
      · rcases List.mem_singleton.mp hmem with rfl
        rw [row_conflicts_symm]
        exact h2 a (List.mem_cons_self a rest)

/-- Successful `add_all` from a distinct table yields a distinct table. -/
theorem add_all_distinct (rows : List SymbolTableRow) :
    ∀ (start : SymbolTable) (t' : SymbolTable),
      distinct_name_parent_pairs start.rows = true →
      add_all start rows = some t' →
      distinct_name_parent_pairs t'.rows = true := by
  induction rows with
  | nil =>
      intro start t' hd h
      simp only [add_all, Option.some.injEq] at h
      exact h ▸ hd
  | cons r rest ih =>
      intro start t' hd h
      simp only [add_all, Option.bind_eq_bind, Option.bind] at h
      rcases hadd : start.add r with _ | t1
      · rw [hadd] at h; cases h
      · rw [hadd] at h
        have hcond : start.rows.any (fun row => row_conflicts row r) = false := by
          by_contra hc
          simp only [SymbolTable.add, Bool.not_eq_false] at hadd hc
          rw [if_pos hc] at hadd
          cases hadd
        have ht1 : t1 = ⟨start.rows ++ [r]⟩ := by
          simp only [SymbolTable.add, hcond, Bool.false_eq_true, if_false,
            Option.some.injEq] at hadd
          exact hadd.symm
        refine ih t1 t' ?_ h
        subst ht1
        refine distinct_append_singleton _ _ hd ?_
        simp only [List.all_eq_true, Bool.not_eq_eq_eq_not, Bool.not_true]
        intro row hrow
        by_contra hc
        have : start.rows.any (fun row => row_conflicts row r) = true :=
          List.any_eq_true.mpr ⟨row, hrow, by simpa using hc⟩
        rw [this] at hcond; cases hcond

/-- C5: inserting a row whose `(name, parent_identifier)` pair duplicates an
existing row is a fatal error (`add` panics, modelled as `none`, so no
extended table is produced); consequently any table built from the empty
table by successful `add`s — as symbol-table construction does — has
pairwise-distinct `(name, parent_identifier)` pairs at every point. -/
theorem symbol_table_add_uniqueness :
    (∀ (t : SymbolTable) (r : SymbolTableRow),
      t.add r = none ↔ ∃ row ∈ t.rows,
        row.get_identifier = r.get_identifier ∧
        row.get_parent_identifier = r.get_parent_identifier) ∧
    (∀ (t : SymbolTable) (r : SymbolTableRow) (t' : SymbolTable),
      distinct_name_parent_pairs t.rows = true → t.add r = some t' →
      distinct_name_parent_pairs t'.rows = true) ∧
    (∀ (rows : List SymbolTableRow) (t' : SymbolTable),
      add_all ⟨[]⟩ rows = some t' → distinct_name_parent_pairs t'.rows = true) := by
  refine ⟨?_, ?_, ?_⟩
  · intro t r
    constructor
    · intro h
      unfold SymbolTable.add at h
      by_cases hc : (t.rows.any fun row => row_conflicts row r) = true
      · rcases List.any_eq_true.mp hc with ⟨row, hmem, hcr⟩
        exact ⟨row, hmem, by simpa [row_conflicts] using hcr⟩
      · rw [if_neg hc] at h; cases h
    · rintro ⟨row, hmem, h1, h2⟩
      unfold SymbolTable.add
      rw [if_pos (List.any_eq_true.mpr ⟨row, hmem, by simp [row_conflicts, h1, h2]⟩)]
  · intro t r t' hd hadd
    have h := add_all_distinct [r] t t' hd
    simp only [add_all, hadd, Option.bind_eq_bind, Option.some_bind] at h
    exact h trivial
  · intro rows t' h
    exact add_all_distinct rows ⟨[]⟩ t' rfl h

/-- Witness for C5 at a concrete table: adding a fresh function row to a
one-row table succeeds and distinctness is preserved. -/
theorem symbol_table_add_uniqueness_witness :
    distinct_name_parent_pairs [SymbolTableRow.Function "f" Ty.Void [] 1 0] = true ∧
    (SymbolTable.mk [SymbolTableRow.Function "f" Ty.Void [] 1 0]).add
        (SymbolTableRow.Function "g" Ty.Void [] 2 0) =
      some ⟨[SymbolTableRow.Function "f" Ty.Void [] 1 0,
             SymbolTableRow.Function "g" Ty.Void [] 2 0]⟩ ∧
    distinct_name_parent_pairs
      [SymbolTableRow.Function "f" Ty.Void [] 1 0,
       SymbolTableRow.Function "g" Ty.Void [] 2 0] = true := by
  refine ⟨by decide, by decide, ?_⟩
  exact symbol_table_add_uniqueness.2.1
    ⟨[SymbolTableRow.Function "f" Ty.Void [] 1 0]⟩
    (SymbolTableRow.Function "g" Ty.Void [] 2 0)
    ⟨[SymbolTableRow.Function "f" Ty.Void [] 1 0,
      SymbolTableRow.Function "g" Ty.Void [] 2 0]⟩ (by decide) (by decide)

/-- `get_identifier_in_scope` returns the first matching row's scope id. -/
theorem get_identifier_in_scope_go_eq (identifier : String)
    (scope_history : List Nat) (rows : List SymbolTableRow) :
    SymbolTable.get_identifier_in_scope.go identifier scope_history rows =
      match rows.find? (row_matches identifier scope_history) with
      | some row => Except.ok row.get_scope_id
      | none => Except.error (VError.user (SemanticError.SymbolNotFoundError identifier)) := by
  induction rows with
  | nil => rfl
  | cons row rest ih =>
      rw [SymbolTable.get_identifier_in_scope.go, List.find?]
      by_cases h : row_matches identifier scope_history row
      · rw [if_pos h, h]
      · rw [Bool.not_eq_true] at h
        rw [if_neg (by rw [h]; exact Bool.false_ne_true), h, ih]

/-- `get_identifier_type_in_scope` acts on the first matching row. -/
theorem get_identifier_type_in_scope_go_eq (identifier : String)
    (scope_history : List Nat) (rows : List SymbolTableRow) :
    SymbolTable.get_identifier_type_in_scope.go identifier scope_history rows =
      match rows.find? (row_matches identifier scope_history) with
      | some row =>
          match row.get_scope_type with
          | some t => Except.ok t
          | none => Except.error VError.panic
      | none => Except.error (VError.user (SemanticError.SymbolNotFoundError identifier)) := by
  induction rows with
  | nil => rfl
  | cons row rest ih =>
      rw [SymbolTable.get_identifier_type_in_scope.go, List.find?]
      by_cases h : row_matches identifier scope_history row
      · rw [if_pos h, h]
      · rw [Bool.not_eq_true] at h
        rw [if_neg (by rw [h]; exact Bool.false_ne_true), h, ih]

/-- `get_mutability_in_scope` acts on the first matching row. -/
theorem get_mutability_in_scope_go_eq (identifier : String)
    (scope_history : List Nat) (rows : List SymbolTableRow) :
    SymbolTable.get_mutability_in_scope.go identifier scope_history rows =
      match rows.find? (row_matches identifier scope_history) with
      | some row =>
          match row.get_mutability with
          | some m => Except.ok m
          | none => Except.error VError.panic
      | none => Except.error (VError.user (SemanticError.SymbolNotFoundError identifier)) := by
  induction rows with
  | nil => rfl
  | cons row rest ih =>
      rw [SymbolTable.get_mutability_in_scope.go, List.find?]
      by_cases h : row_matches identifier scope_history row
      · rw [if_pos h, h]
      · rw [Bool.not_eq_true] at h
        rw [if_neg (by rw [h]; exact Bool.false_ne_true), h, ih]

/-- C9: `get_identifier_in_scope` and its type and mutability variants scan
the rows in insertion order and act on the first row whose name matches and
whose parent scope id lies in the scope history (so the earliest-inserted
in-scope row wins, not the innermost scope), and `SymbolNotFoundError` is
returned exactly when no row matches. -/
theorem identifier_resolution_first_match (rows : List SymbolTableRow)
    (identifier : String) (scope_history : List Nat) :
    ((SymbolTable.mk rows).get_identifier_in_scope identifier scope_history =
      match rows.find? (row_matches identifier scope_history) with
      | some row => Except.ok row.get_scope_id
      | none => Except.error (VError.user (SemanticError.SymbolNotFoundError identifier))) ∧
    ((SymbolTable.mk rows).get_identifier_type_in_scope identifier scope_history =
      match rows.find? (row_matches identifier scope_history) with
      | some row =>
          match row.get_scope_type with
          | some t => Except.ok t
          | none => Except.error VError.panic
      | none => Except.error (VError.user (SemanticError.SymbolNotFoundError identifier))) ∧
    ((SymbolTable.mk rows).get_mutability_in_scope identifier scope_history =
      match rows.find? (row_matches identifier scope_history) with
      | some row =>
          match row.get_mutability with
          | some m => Except.ok m
          | none => Except.error VError.panic
      | none => Except.error (VError.user (SemanticError.SymbolNotFoundError identifier))) ∧
    ((SymbolTable.mk rows).get_identifier_in_scope identifier scope_history =
        Except.error (VError.user (SemanticError.SymbolNotFoundError identifier)) ↔
      ∀ row ∈ rows, ¬(row.get_identifier = identifier ∧
        row.get_parent_scope_id ∈ scope_history)) := by
  have h1 := get_identifier_in_scope_go_eq identifier scope_history rows
  refine ⟨h1, get_identifier_type_in_scope_go_eq identifier scope_history rows,
    get_mutability_in_scope_go_eq identifier scope_history rows, ?_⟩
  show SymbolTable.get_identifier_in_scope.go identifier scope_history rows = _ ↔ _
  rw [h1]
  constructor
  · intro h row hmem hcontra
    rcases hfind : rows.find? (row_matches identifier scope_history) with _ | found
    · have := List.find?_eq_none.mp hfind row hmem
      exact this (by simp [row_matches, hcontra.1, hcontra.2])
    · rw [hfind] at h; cases h
  · intro h
    rcases hfind : rows.find? (row_matches identifier scope_history) with _ | found
    · rfl
    · exfalso
      have hmem := List.mem_of_find?_eq_some hfind
      have hmatch := List.find?_some hfind
      simp only [row_matches, Bool.and_eq_true, beq_iff_eq] at hmatch
      exact h found hmem ⟨hmatch.1, by simpa using hmatch.2⟩

/-- C10: when the step clause of a for loop is omitted (no token, or a token
of an unexpected rule), the parser inserts a default step whose value node is
tagged with the loop's control type but whose literal payload is always
`Literal::Integer(1)` — in particular for a `long` control type the payload
is still the `Integer` literal, not a `Long` literal. -/
theorem for_loop_default_step (control_type : Ty) :
    build_for_loop_step control_type StepClause.absent =
      ASTNode.Term (ASTNode.Value control_type (Literal.Integer 1)) ∧
    build_for_loop_step control_type StepClause.otherTok =
      ASTNode.Term (ASTNode.Value control_type (Literal.Integer 1)) ∧
    build_for_loop_step Ty.Long StepClause.absent =
      ASTNode.Term (ASTNode.Value Ty.Long (Literal.Integer 1)) ∧
    Literal.Integer 1 ≠ Literal.Long 1 := by
  refine ⟨rfl, rfl, rfl, by decide⟩

end Iridescent
